import Mathlib

/-!
Verification development for the siyuan-sync synchronization engine.

The definitions below are a shallow embedding of the TypeScript sources
under `src/src/sync/` (sync-manager.ts, conflict-handler.ts, cloud-index.ts,
sync-history.ts, sync-targets.ts, storage-item.ts, and the Pan123 upload
client embedded in sync-targets.ts). JavaScript `Map`s and plain objects
used as dictionaries are modelled as association lists (`List (String × _)`)
with first-match lookup; JavaScript numbers holding epoch timestamps are
modelled as `Nat`; JavaScript truthiness of `x || d` on numbers (where `0`
is falsy) is modelled explicitly by `jsOrNat`. Asynchronous effectful
methods are modelled as pure state-passing functions over explicit state
records; a thrown exception is modelled as a `Bool`/`Except` outcome.
-/

namespace SiyuanSync

/-- First-match association-list lookup, modelling JavaScript `Map.get` /
object property access on string-keyed dictionaries. -/
def alookup {α : Type} (l : List (String × α)) (k : String) : Option α :=
  match l with
  | [] => none
  | kv :: rest => if kv.1 = k then some kv.2 else alookup rest k

/-- JavaScript `a || b` on an optional number: `undefined` and `0` are falsy. -/
def jsOrNat (a : Option Nat) (b : Nat) : Nat :=
  match a with
  | some n => if n = 0 then b else n
  | none => b

/-- One file or directory record as it flows through the sync engine
(`FileInfo` in storage-item.ts / `CloudFileInfo` entries restricted to the
fields the reconciliation logic reads). -/
structure FileInfo where
  name : String
  path : String
  isDir : Bool
  updated : Nat
  size : Option Nat := none
  md5 : Option String := none
  fileId : Option Nat := none
deriving Repr, DecidableEq

/-- One sync endpoint (`Remote` in remote.ts). `instanceId` is declared
optional in TypeScript but is always assigned by `initializeRemotes` before
any use; the sites that read it use either `instanceId!` or
`instanceId || ""` (the latter is the identity on a present string), so it
is modelled as a plain `String`. `syncHistory` is a JavaScript
`Map<string, number>` of peer instance id to last pairwise sync time. -/
structure Remote where
  instanceId : String
  syncHistory : List (String × Nat)
  isCloud : Bool
deriving Repr, DecidableEq

/-- `SyncHistory.getLastSyncWithRemote`: `remote.syncHistory.get(id) || 0`. -/
def getLastSyncWithRemote (r : Remote) (instanceId : String) : Nat :=
  jsOrNat (alookup r.syncHistory instanceId) 0

/-- `SyncHistory.getMostRecentSyncTime`: 0 on an empty map, otherwise
`Math.max` over all stored values. -/
def getMostRecentSyncTime (r : Remote) : Nat :=
  match r.syncHistory with
  | [] => 0
  | l => (l.map (·.2)).foldl Nat.max 0

/-- `ConflictHandler.detectConflict` (conflict-handler.ts 31-73): no
conflict when both histories are 0 for each other, none on equal
timestamps, otherwise conflict iff both sides were modified after their
last mutual sync. The `path` argument is used only for logging. -/
def detectConflict (path : String) (localTimestamp cloudTimestamp : Nat)
    (localRemote cloudRemote : Remote) : Bool :=
  let _ := path
  let localLastSync := getLastSyncWithRemote localRemote cloudRemote.instanceId
  let cloudLastSync := getLastSyncWithRemote cloudRemote localRemote.instanceId
  if localLastSync = 0 ∧ cloudLastSync = 0 then false
  else if localTimestamp = cloudTimestamp then false
  else decide (localTimestamp > localLastSync) && decide (cloudTimestamp > cloudLastSync)

/-- One entry of the hub index (`CloudFileInfo` in cloud-index.ts). -/
structure CloudFileInfo where
  name : String
  path : String
  encodedFileName : String
  fileId : Nat
  updated : Nat
  size : Nat
  md5 : Option String := none
  isDir : Bool
deriving Repr, DecidableEq

/-- The hub index document (`CloudIndexV2` in cloud-index.ts). `version` is
whatever number the parsed JSON carried, so it is an `Int` rather than the
literal 2. `files` is a string-keyed JavaScript object. -/
structure CloudIndexV2 where
  version : Int
  lastUpdated : Nat
  instanceId : String
  files : List (String × CloudFileInfo)
deriving Repr, DecidableEq

/-- `CloudIndexManager.createEmptyIndex` (cloud-index.ts 231-238). -/
def createEmptyIndex (now : Nat) : CloudIndexV2 :=
  { version := 2, lastUpdated := now, instanceId := "", files := [] }

/-- The possible outcomes of fetching and parsing the hub index object,
as distinguished by `CloudIndexManager.load` (cloud-index.ts 45-89):
the listing threw, no index object exists, the download response was not
ok, `response.json()` threw, or a document was parsed. -/
inductive IndexFetchOutcome where
  | listFailed
  | missing
  | downloadFailed
  | parseFailed
  | parsed (doc : CloudIndexV2)
deriving Repr, DecidableEq

/-- `CloudIndexManager.load` (cloud-index.ts 45-89) on a cold cache: every
failure path is caught and replaced by `createEmptyIndex`; a parsed
document whose `version` is not 2 is likewise replaced; a parsed version-2
document is returned as-is. The function is total: no outcome raises. -/
def load (outcome : IndexFetchOutcome) (now : Nat) : CloudIndexV2 :=
  match outcome with
  | .listFailed => createEmptyIndex now
  | .missing => createEmptyIndex now
  | .downloadFailed => createEmptyIndex now
  | .parseFailed => createEmptyIndex now
  | .parsed doc => if doc.version = 2 then doc else createEmptyIndex now

/-- JavaScript `delete index.files[path]`. -/
def eraseKey {α : Type} (l : List (String × α)) (k : String) : List (String × α) :=
  l.filter (fun kv => kv.1 ≠ k)

/-- Run-scoped state of `CloudIndexManager`: the cached document, the last
document persisted to the backend, and how many times `save` ran. -/
structure IndexMgrState where
  cached : CloudIndexV2
  persisted : Option CloudIndexV2
  saveCount : Nat
deriving Repr, DecidableEq

/-- `CloudIndexManager.save` (cloud-index.ts 94-131): stamp `lastUpdated`,
delete the old index object, upload the new one, and keep it as the cache. -/
def saveStep (now : Nat) (st : IndexMgrState) (d : CloudIndexV2) : IndexMgrState :=
  let d' := { d with lastUpdated := now }
  { cached := d', persisted := some d', saveCount := st.saveCount + 1 }

/-- `CloudIndexManager.removeFile` (cloud-index.ts 158-165): delete the
entry and persist only when `index.files[path]` is present. -/
def removeFileStep (now : Nat) (p : String) (st : IndexMgrState) : IndexMgrState :=
  if (alookup st.cached.files p).isSome then
    saveStep now st { st.cached with files := eraseKey st.cached.files p }
  else st

/-- The `paths.forEach` loop body of `CloudIndexManager.removeFiles`
(cloud-index.ts 170-183): returns the files dictionary after all deletions
together with the `removed` counter. -/
def removeFilesGo (ps : List String) (fs : List (String × CloudFileInfo)) :
    List (String × CloudFileInfo) × Nat :=
  match ps with
  | [] => (fs, 0)
  | p :: rest =>
    if (alookup fs p).isSome then
      let r := removeFilesGo rest (eraseKey fs p)
      (r.1, r.2 + 1)
    else removeFilesGo rest fs

/-- `CloudIndexManager.removeFiles` (cloud-index.ts 170-183): drop every
listed path that is present, then persist once iff `removed > 0`. -/
def removeFilesStep (now : Nat) (ps : List String) (st : IndexMgrState) : IndexMgrState :=
  let r := removeFilesGo ps st.cached.files
  if r.2 > 0 then saveStep now st { st.cached with files := r.1 } else st

/-- The option flags of one sync target (sync-targets.ts `SyncTarget`);
every field is optional in TypeScript. -/
structure SyncOptions where
  deleteFoldersOnly : Option Bool := none
  onlyIfMissing : Option Bool := none
  avoidDeletions : Option Bool := none
  trackConflicts : Option Bool := none
  trackUpdatedFiles : Option Bool := none
deriving Repr, DecidableEq

/-- One configured sync target (sync-targets.ts `SyncTarget`); an absent
`options` object behaves exactly like one with every flag absent. -/
structure SyncTarget where
  path : String
  excludedItems : List String := []
  options : SyncOptions := {}
deriving Repr, DecidableEq

/-- `shouldAvoidDeletion` (sync-targets.ts 143-157). The `path` argument is
unused by the source as well. -/
def shouldAvoidDeletion (path : String) (target : SyncTarget) (isDir : Bool) : Bool :=
  let _ := path
  if target.options.avoidDeletions = some true then true
  else if target.options.deleteFoldersOnly = some true ∧ isDir = false then true
  else false

/-- JavaScript `target && shouldAvoidDeletion(path, target, isDir)` in
`SyncManager.handleDeletion`. -/
def avoidDeletionOf (path : String) (target : Option SyncTarget) (isDir : Bool) : Bool :=
  match target with
  | some t => shouldAvoidDeletion path t isDir
  | none => false

/-- `target?.options?.onlyIfMissing` truthiness in `SyncManager.syncFile`. -/
def onlyIfMissingOf (target : Option SyncTarget) : Bool :=
  match target with
  | some t => t.options.onlyIfMissing = some true
  | none => false

/-- `target?.options?.trackConflicts !== false` in `SyncManager.syncFile`
(conflicts are tracked by default). -/
def shouldTrackConflictsOf (target : Option SyncTarget) : Bool :=
  match target with
  | some t => t.options.trackConflicts ≠ some false
  | none => true

/-- The externally visible mutating operations a single-file reconciliation
can perform (transfers, deletions, index updates, conflict-copy writes). -/
inductive Action where
  | upload (path : String)
  | download (path : String)
  | deleteLocal (path : String)
  | deleteCloud (path : String)
  | removeIndex (path : String)
  | writeConflictCopy (path : String) (modTime : Nat)
deriving Repr, DecidableEq

/-- `SyncManager.handleDeletion` (sync-manager.ts 456-534) as the list of
mutating operations it performs, given that at most one side holds the
file. `existingTimestamp` is `localFile?.updated || cloudFile?.updated || 0`
and the common/most-recent sync times are taken from the holder's history. -/
def handleDeletionActs (path : String) (localFile cloudFile : Option FileInfo)
    (localRemote cloudRemote : Remote) (target : Option SyncTarget) : List Action :=
  let missingLocal := localFile.isNone
  let existingTimestamp :=
    jsOrNat (localFile.map (·.updated)) (jsOrNat (cloudFile.map (·.updated)) 0)
  let commonSync :=
    if missingLocal then getLastSyncWithRemote cloudRemote localRemote.instanceId
    else getLastSyncWithRemote localRemote cloudRemote.instanceId
  let mostRecentSync :=
    if missingLocal then getMostRecentSyncTime cloudRemote
    else getMostRecentSyncTime localRemote
  let shouldDelete :=
    commonSync > 0 ∧ commonSync > existingTimestamp ∧ commonSync ≥ mostRecentSync
  let isDir := ((localFile.map (·.isDir)).getD false) || ((cloudFile.map (·.isDir)).getD false)
  let avoidDeletion := avoidDeletionOf path target isDir
  if shouldDelete ∧ avoidDeletion = false then
    if missingLocal ∧ cloudFile.isSome then [.deleteCloud path, .removeIndex path]
    else if missingLocal = false ∧ localFile.isSome then [.deleteLocal path]
    else []
  else
    if missingLocal ∧ cloudFile.isSome then [.download path]
    else if missingLocal = false ∧ localFile.isSome then [.upload path]
    else []

/-- Zero-pad a number to two digits, as the locale time formatting does. -/
def pad2 (n : Nat) : String :=
  if n < 10 then "0" ++ toString n else toString n

/-- Proleptic Gregorian civil date from days since the Unix epoch
(valid for dates at or after 1970-01-01). -/
def daysToCivil (days : Nat) : Nat × Nat × Nat :=
  let z := days + 719468
  let era := z / 146097
  let doe := z % 146097
  let yoe := (doe - doe / 1460 + doe / 36524 - doe / 146096) / 365
  let y := yoe + era * 400
  let doy := doe - (365 * yoe + yoe / 4 - yoe / 100)
  let mp := (5 * doy + 2) / 153
  let d := doy - (153 * mp + 2) / 5 + 1
  let m := if mp < 10 then mp + 3 else mp - 9
  (if m ≤ 2 then y + 1 else y, m, d)

/-- `ConflictHandler.getFormattedDate(date).replace(/[:\s]/g, "-")` on the
date built from an epoch-second timestamp: a second-precision
"YYYY-MM-DD-HH-mm-ss" rendering. The source formats via the host locale in
the host timezone; the rendering is modelled in UTC — what matters to the
sync logic is that it is a fixed deterministic function of the timestamp. -/
def formatStampSec (secs : Nat) : String :=
  let c := daysToCivil (secs / 86400)
  let rem := secs % 86400
  toString c.1 ++ "-" ++ pad2 c.2.1 ++ "-" ++ pad2 c.2.2 ++ "-" ++
    pad2 (rem / 3600) ++ "-" ++ pad2 (rem % 3600 / 60) ++ "-" ++ pad2 (rem % 60)

/-- JavaScript `s.split(sep)` for a one-character separator, by structural
recursion over the characters (so that proofs can evaluate it). -/
def splitOnChar (c : Char) (s : String) : List String :=
  (s.data.foldr
    (fun ch acc =>
      match acc with
      | [] => if ch = c then [[], []] else [[ch]]
      | cur :: rest => if ch = c then [] :: cur :: rest else (ch :: cur) :: rest)
    [[]]).map String.mk

/-- JavaScript `parts.join(sep)`. -/
def joinWith (sep : String) : List String → String
  | [] => ""
  | [x] => x
  | x :: y :: xs => x ++ sep ++ joinWith sep (y :: xs)

/-- The conflict-copy filename derivation of `ConflictHandler.handleConflict`
(conflict-handler.ts 154-159): base name, the marker with the formatted
older timestamp, then the original extension when there is one
(`fileName.includes(".")` is `parts.length ≥ 2`, `split(".").pop()` is the
last part, and `substring(0, lastIndexOf("."))` is the join of the other
parts). -/
def conflictFileName (fileName stamp : String) : String :=
  let parts := splitOnChar '.' fileName
  let fileExt := if parts.length ≥ 2 then (parts.getLast?).getD "" else ""
  let fileBaseName :=
    if fileExt ≠ "" then joinWith "." parts.dropLast else fileName
  fileBaseName ++ " (冲突副本 " ++ stamp ++ ")" ++
    (if fileExt ≠ "" then "." ++ fileExt else "")

/-- One file written to the local endpoint by conflict handling. -/
structure ConflictWrite where
  path : String
  modTime : Nat
deriving Repr, DecidableEq

/-- What `ConflictHandler.handleConflict` (conflict-handler.ts 137-211,
the keep-both action) leaves behind: the conflict copies it persisted
(the source writes one only when the local side is strictly older; the
cloud-older branch writes nothing) and the filename its closing message
reports as saved (the message is shown unconditionally). -/
structure ConflictOutcome where
  writes : List ConflictWrite
  reportedSavedAs : String
deriving Repr, DecidableEq

/-- `ConflictHandler.handleConflict` (conflict-handler.ts 137-211). -/
def handleConflict (path : String) (localTimestamp cloudTimestamp : Nat) :
    ConflictOutcome :=
  let olderTimestamp := Nat.min localTimestamp cloudTimestamp
  let isLocalOlder := decide (localTimestamp < cloudTimestamp)
  let formattedDate := formatStampSec olderTimestamp
  let pathParts := splitOnChar '/' path
  let fileName := (pathParts.getLast?).getD ""
  let cName := conflictFileName fileName formattedDate
  let dirPath := joinWith "/" pathParts.dropLast
  let conflictPath := dirPath ++ "/" ++ cName
  { writes := if isLocalOlder then [⟨conflictPath, olderTimestamp⟩] else [],
    reportedSavedAs := cName }

/-- The four conflict strategies of `SyncManager`. -/
inductive Strategy where
  | keepBoth
  | keepNewer
  | keepLocal
  | keepRemote
deriving Repr, DecidableEq

/-- `ConflictHandler.handleConflictWithStrategy` (conflict-handler.ts
79-131): the returned flag is "continue syncing", and keep-both performs
its copy writes as side effects. -/
def handleConflictWithStrategy (path : String) (localTimestamp cloudTimestamp : Nat)
    (strategy : Strategy) : Bool × List Action :=
  match strategy with
  | .keepNewer => (true, [])
  | .keepLocal => (false, [])
  | .keepRemote => (true, [])
  | .keepBoth =>
    (true, (handleConflict path localTimestamp cloudTimestamp).writes.map
      (fun w => .writeConflictCopy w.path w.modTime))

/-- `localFile?.updated || 0` / `cloudFile?.updated || 0`. -/
def jsTs (f : Option FileInfo) : Nat :=
  jsOrNat (f.map (·.updated)) 0

/-- The part of `SyncManager.syncFile` after conflict handling
(sync-manager.ts 430-451): deletion-vs-creation when one side is missing,
otherwise newer-wins transfer. -/
def syncFileTail (path : String) (localFile cloudFile : Option FileInfo)
    (localRemote cloudRemote : Remote) (target : Option SyncTarget)
    (localTimestamp cloudTimestamp : Nat) : List Action :=
  if localFile.isNone ∨ cloudFile.isNone then
    handleDeletionActs path localFile cloudFile localRemote cloudRemote target
  else if localTimestamp > cloudTimestamp then [.upload path]
  else if cloudTimestamp > localTimestamp then [.download path]
  else []

/-- `SyncManager.syncFile` (sync-manager.ts 368-451) as the list of
mutating operations it performs for one path. -/
def syncFileActs (path : String) (localFile cloudFile : Option FileInfo)
    (localRemote cloudRemote : Remote) (strategy : Strategy)
    (target : Option SyncTarget) : List Action :=
  if localFile.isNone ∧ cloudFile.isNone then []
  else if onlyIfMissingOf target ∧ localFile.isSome ∧ cloudFile.isSome then []
  else
    let localTimestamp := jsTs localFile
    let cloudTimestamp := jsTs cloudFile
    if localFile.isSome ∧ cloudFile.isSome ∧ localTimestamp = cloudTimestamp then []
    else
      let conflictActs :=
        if shouldTrackConflictsOf target ∧ localFile.isSome ∧ cloudFile.isSome ∧
            detectConflict path localTimestamp cloudTimestamp localRemote cloudRemote then
          some (handleConflictWithStrategy path localTimestamp cloudTimestamp strategy)
        else none
      match conflictActs with
      | some r =>
        if r.1 = false then r.2
        else r.2 ++ syncFileTail path localFile cloudFile localRemote cloudRemote target
          localTimestamp cloudTimestamp
      | none => syncFileTail path localFile cloudFile localRemote cloudRemote target
          localTimestamp cloudTimestamp

/-- `fiveMinutesInMs` in `SyncManager.acquireLock`. -/
def fiveMinutesInMs : Nat := 5 * 60 * 1000

/-- The persisted objects of the hub folder that the run prefix of
`SyncManager.sync` touches: the index document (content of
cloud-index-v2.json, `none` when absent), the lock object's creation time
in milliseconds (`sync.lock`, `none` when absent), the cloud `instance-id`
object, the synced data-file objects, and the persisted cloud sync-history
document. -/
structure HubState where
  index : Option CloudIndexV2
  lock : Option Nat
  cloudIdFile : Option String
  dataFiles : List (String × Nat)
  histories : List (String × Nat)
deriving Repr, DecidableEq

/-- `SyncManager.acquireLock` (sync-manager.ts 210-247): when a lock object
exists its age is `now - createAt`; a fresh one (age below five minutes)
throws the distinguishable "already locked" error before any mutation,
otherwise the stale lock is deleted and a new lock object is uploaded.
When no lock exists a new lock object is uploaded. The result flag is
`true` when the lock was acquired, `false` for the thrown error. In the
source the age is JavaScript number subtraction; a lock created "in the
future" gives a negative age there and `0` here, and both are below the
threshold, so the branch taken is the same. -/
def acquireLockStep (now : Nat) (s : HubState) : HubState × Bool :=
  match s.lock with
  | some createAt =>
    if now - createAt < fiveMinutesInMs then (s, false)
    else ({ s with lock := some now }, true)
  | none => ({ s with lock := some now }, true)

/-- `SyncUtils.getCloudInstanceId`: read the cloud `instance-id` object if
present, otherwise generate a fresh id and persist it. -/
def getCloudInstanceIdStep (fresh : String) (s : HubState) : String × HubState :=
  match s.cloudIdFile with
  | some id => (id, s)
  | none => (fresh, { s with cloudIdFile := some fresh })

/-- The fetch outcome `CloudIndexManager.load` sees for a given hub state:
the parsed document when the index object is present, else a miss. -/
def idxOutcome (s : HubState) : IndexFetchOutcome :=
  match s.index with
  | some doc => .parsed doc
  | none => .missing

/-- `CloudIndexManager.setInstanceId` (cloud-index.ts 222-226): load the
index (substituting an empty document for any fetch failure), bind the
instance id, and persist the whole document back (`save` also stamps
`lastUpdated`). -/
def setInstanceIdStep (now : Nat) (cid : String) (s : HubState) : HubState :=
  let d := load (idxOutcome s) now
  { s with index := some { d with instanceId := cid, lastUpdated := now } }

/-- The prefix of `SyncManager.sync` (sync-manager.ts 71-119) up to and
including lock acquisition: resolve the cloud instance id, load the index,
`setInstanceId` (which persists the index), then `acquireLock`. The flag is
`false` when the run fails with the "already locked" error. -/
def syncUpToLock (now : Nat) (freshId : String) (s : HubState) : HubState × Bool :=
  let r := getCloudInstanceIdStep freshId s
  let s2 := setInstanceIdStep now r.1 r.2
  acquireLockStep now s2

/-- A node of a snapshot tree (`StorageItem` in storage-item.ts). -/
inductive StorageItem where
  | mk (path : String) (parentPath : Option String) (item : Option FileInfo)
      (files : List StorageItem)
deriving Repr

/-- The node's path. -/
def StorageItem.path : StorageItem → String
  | .mk p _ _ _ => p

/-- The node's parent path. -/
def StorageItem.parentPath : StorageItem → Option String
  | .mk _ pp _ _ => pp

/-- The node's metadata record (`null` when absent). -/
def StorageItem.item : StorageItem → Option FileInfo
  | .mk _ _ i _ => i

/-- The node's children. -/
def StorageItem.files : StorageItem → List StorageItem
  | .mk _ _ _ fs => fs

/-- JavaScript `Map.set` on a path-keyed association list: an existing key
keeps its position and gets the new value, a new key is appended. -/
def mapSet (m : List (String × StorageItem)) (k : String) (v : StorageItem) :
    List (String × StorageItem) :=
  if (alookup m k).isSome then
    m.map (fun kv => if kv.1 = k then (k, v) else kv)
  else m ++ [(k, v)]

/-- The `filesMap` construction of `StorageItem.joinItems`: insert
`item1`'s children first, then `item2`'s, keyed by path. -/
def buildFilesMap (fs : List StorageItem) : List (String × StorageItem) :=
  fs.foldl (fun m f => mapSet m f.path f) []

/-- `StorageItem.joinItems` (storage-item.ts 103-125): joining two nulls
throws, one null returns the other side unchanged, differing paths throw,
and otherwise the node keeps `item1.item || item2.item` and the path-keyed
combination of both children lists. -/
def joinItems (item1 item2 : Option StorageItem) : Except String StorageItem :=
  match item1, item2 with
  | none, none => .error "Cannot join two null items"
  | none, some i2 => .ok i2
  | some i1, none => .ok i1
  | some i1, some i2 =>
    if i1.path ≠ i2.path then .error "Cannot join StorageItems with different paths"
    else
      .ok (.mk i1.path i1.parentPath
        (match i1.item with | some x => some x | none => i2.item)
        ((buildFilesMap (i1.files ++ i2.files)).map (·.2)))

/-- `MAX_SLICE_RETRIES` in the Pan123 client. -/
def maxSliceRetries : Nat := 3

/-- `RETRY_DELAY` (ms) in the Pan123 client. -/
def retryDelay : Nat := 1000

/-- `DEFAULT_SLICE_SIZE` in the Pan123 client. -/
def defaultSliceSize : Nat := 16 * 1024 * 1024

/-- The observable events of a chunked upload: submitting one attempt of
one 1-based slice, and the backoff sleeps between attempts. -/
inductive UploadEvent where
  | submit (sliceNo attempt : Nat)
  | sleep (ms : Nat)
deriving Repr, DecidableEq

/-- The retry loop of `Pan123Client.uploadSliceWithRetry` (sync-targets.ts
730-826), from a given attempt number with enough fuel for the remaining
attempts. `f a = true` means attempt `a` of this slice fails (timeout,
network error, server error, or echoed-digest mismatch — all are caught by
the same handler). A failed attempt below the bound sleeps
`RETRY_DELAY * attempt` and retries the same slice; at the bound the loop
gives up. -/
def retryFrom (f : Nat → Bool) (sliceNo : Nat) : Nat → Nat → List UploadEvent × Bool
  | _, 0 => ([], false)
  | attempt, fuel + 1 =>
    if f attempt then
      if attempt < maxSliceRetries then
        let r := retryFrom f sliceNo (attempt + 1) fuel
        (.submit sliceNo attempt :: .sleep (retryDelay * attempt) :: r.1, r.2)
      else ([.submit sliceNo attempt], false)
    else ([.submit sliceNo attempt], true)

/-- `Pan123Client.uploadSliceWithRetry`: attempts start at 1 and are
bounded by `MAX_SLICE_RETRIES`. -/
def uploadSliceWithRetry (f : Nat → Bool) (sliceNo : Nat) : List UploadEvent × Bool :=
  retryFrom f sliceNo 1 maxSliceRetries

/-- The slice loop of `Pan123Client.uploadSlices` (sync-targets.ts
676-728) over the listed slice numbers: strictly sequential, and a slice
whose retries are exhausted aborts the whole upload (the thrown error). -/
def uploadSlicesGo (fails : Nat → Nat → Bool) : List Nat → List UploadEvent × Bool
  | [] => ([], true)
  | s :: rest =>
    let r := uploadSliceWithRetry (fails s) s
    if r.2 then
      let r2 := uploadSlicesGo fails rest
      (r.1 ++ r2.1, r2.2)
    else r

/-- The chunk size used by `uploadSlices`: the negotiated `sliceSize` when
positive, else `DEFAULT_SLICE_SIZE`. -/
def effectiveChunk (sliceSize : Nat) : Nat :=
  if sliceSize > 0 then sliceSize else defaultSliceSize

/-- The number of slices the `while (offset < totalSize)` loop submits:
`ceil(totalSize / chunkSize)`. -/
def numSlices (totalSize chunkSize : Nat) : Nat :=
  (totalSize + chunkSize - 1) / chunkSize

/-- `Pan123Client.uploadSlices`: 1-based slices submitted in order; the
result flag is `true` iff every slice succeeded within the retry bound
(after which `completeUpload` runs once for the file). -/
def uploadSlices (fails : Nat → Nat → Bool) (totalSize sliceSize : Nat) :
    List UploadEvent × Bool :=
  uploadSlicesGo fails (List.range' 1 (numSlices totalSize (effectiveChunk sliceSize)))

/-- The first attempt number within the retry bound at which a slice
succeeds, if any. -/
def firstOk (f : Nat → Bool) : Option Nat :=
  (List.range' 1 maxSliceRetries).find? (fun a => f a = false)

/-- The per-slice trace the specification describes (spec §4.5 steps 4-5):
submit attempts of the same slice starting at 1, sleeping
`attempt × RETRY_DELAY` after each failure, stopping at the first success
or after `MAX_SLICE_RETRIES` attempts. Stated from the spec's words, to be
compared with `uploadSliceWithRetry` from the source. -/
def sliceRetrySpec (f : Nat → Bool) (sliceNo : Nat) : List UploadEvent × Bool :=
  match firstOk f with
  | some a =>
    (((List.range' 1 (a - 1)).map
        (fun i => [UploadEvent.submit sliceNo i, UploadEvent.sleep (retryDelay * i)])).flatten ++
      [UploadEvent.submit sliceNo a], true)
  | none =>
    (((List.range' 1 (maxSliceRetries - 1)).map
        (fun i => [UploadEvent.submit sliceNo i, UploadEvent.sleep (retryDelay * i)])).flatten ++
      [UploadEvent.submit sliceNo maxSliceRetries], false)

/-- Find a child node by path among a children list (the observable way a
merged node's child collection is consumed). -/
def findChild (l : List StorageItem) (k : String) : Option StorageItem :=
  l.find? (fun f => decide (f.path = k))

/-- A concrete per-slice failure plan for evaluating the chunked-upload
model: slice 2 fails its first two attempts and succeeds on the third,
every other slice succeeds immediately. -/
def sliceFailPlan (s a : Nat) : Bool :=
  decide (s = 2 ∧ a < 3)

/-! ## Theorems -/

/-- C3: `detectConflict` returns `false` when both endpoints' histories
record 0 for each other and `false` on equal timestamps; otherwise it is
`true` iff each side's timestamp exceeds its last sync time with the other
endpoint; and the last sync time with an unknown peer is 0. -/
theorem detectConflict_characterization
    (path : String) (localTs cloudTs : Nat) (localR cloudR : Remote) :
    (getLastSyncWithRemote localR cloudR.instanceId = 0 ∧
        getLastSyncWithRemote cloudR localR.instanceId = 0 →
      detectConflict path localTs cloudTs localR cloudR = false) ∧
    (localTs = cloudTs → detectConflict path localTs cloudTs localR cloudR = false) ∧
    (¬(getLastSyncWithRemote localR cloudR.instanceId = 0 ∧
        getLastSyncWithRemote cloudR localR.instanceId = 0) →
      localTs ≠ cloudTs →
      (detectConflict path localTs cloudTs localR cloudR = true ↔
        localTs > getLastSyncWithRemote localR cloudR.instanceId ∧
        cloudTs > getLastSyncWithRemote cloudR localR.instanceId)) ∧
    (∀ (r : Remote) (id : String), alookup r.syncHistory id = none →
      getLastSyncWithRemote r id = 0) := by
  refine ⟨?_, ?_, ?_, ?_⟩
  · intro h
    simp [detectConflict, h]
  · intro h
    simp [detectConflict, h]
  · intro h1 h2
    simp [detectConflict, h1, h2]
  · intro r id h
    simp [getLastSyncWithRemote, h, jsOrNat]

/-- C3 witness: a concrete conflict where both sides were modified after
their recorded mutual sync times. -/
theorem detectConflict_characterization_witness :
    detectConflict "p" 30 40 ⟨"L", [("C", 10)], false⟩ ⟨"C", [("L", 20)], true⟩ = true :=
  ((detectConflict_characterization "p" 30 40 ⟨"L", [("C", 10)], false⟩
    ⟨"C", [("L", 20)], true⟩).2.2.1 (by decide) (by decide)).mpr (by decide)

/-- C7: every failing outcome of fetching or parsing the hub index — the
listing throwing, a missing index object, a failed download, a parse
failure, or a wrong-version document — makes `load` return the empty
version-2 document instead of raising, and a parsed version-2 document is
returned as-is. -/
theorem load_recovers_with_empty_index (now : Nat) (doc : CloudIndexV2) :
    load .listFailed now = createEmptyIndex now ∧
    load .missing now = createEmptyIndex now ∧
    load .downloadFailed now = createEmptyIndex now ∧
    load .parseFailed now = createEmptyIndex now ∧
    load (.parsed doc) now = (if doc.version = 2 then doc else createEmptyIndex now) ∧
    (createEmptyIndex now).version = 2 ∧ (createEmptyIndex now).files = [] :=
  ⟨rfl, rfl, rfl, rfl, rfl, rfl, rfl⟩

/-- Looking a key up after a JavaScript `delete` of another key. -/
theorem alookup_eraseKey {α : Type} (fs : List (String × α)) (p0 p : String) :
    alookup (eraseKey fs p0) p = if p = p0 then none else alookup fs p := by
  induction fs with
  | nil => simp [eraseKey, alookup]
  | cons kv rest ih =>
    by_cases hk : kv.1 = p0
    · have he : eraseKey (kv :: rest) p0 = eraseKey rest p0 := by simp [eraseKey, hk]
      rw [he, ih]
      by_cases hp : p = p0
      · simp [hp]
      · have hkp : ¬kv.1 = p := fun hc => hp (by rw [← hc, hk])
        simp [alookup, hkp, hp]
    · have he : eraseKey (kv :: rest) p0 = kv :: eraseKey rest p0 := by
        simp [eraseKey, hk]
      rw [he]
      by_cases hkp : kv.1 = p
      · have hp : ¬p = p0 := fun hc => hk (by rw [hkp, hc])
        simp [alookup, hkp, hp]
      · simp [alookup, hkp, ih]

/-- When none of the listed paths is present, the `removeFiles` loop
removes nothing and counts nothing. -/
theorem removeFilesGo_all_absent (ps : List String) (fs : List (String × CloudFileInfo))
    (h : ∀ q ∈ ps, alookup fs q = none) : removeFilesGo ps fs = (fs, 0) := by
  induction ps with
  | nil => rfl
  | cons p rest ih =>
    have hp : alookup fs p = none := h p (by simp)
    simp only [removeFilesGo, hp, Option.isSome_none, Bool.false_eq_true, if_false]
    exact ih fun q hq => h q (by simp [hq])

/-- The `removed` counter of the `removeFiles` loop is positive iff some
listed path is present in the dictionary it started from. -/
theorem removeFilesGo_removed_pos (ps : List String) (fs : List (String × CloudFileInfo)) :
    0 < (removeFilesGo ps fs).2 ↔ ∃ p ∈ ps, (alookup fs p).isSome := by
  induction ps generalizing fs with
  | nil => simp [removeFilesGo]
  | cons p rest ih =>
    simp only [removeFilesGo]
    by_cases h : (alookup fs p).isSome = true
    · rw [if_pos h]
      simp only [List.mem_cons]
      constructor
      · intro _
        exact ⟨p, Or.inl rfl, h⟩
      · intro _
        exact Nat.succ_pos _
    · rw [if_neg h, ih]
      simp only [List.mem_cons]
      constructor
      · rintro ⟨q, hq, hqs⟩
        exact ⟨q, Or.inr hq, hqs⟩
      · rintro ⟨q, hq, hqs⟩
        rcases hq with rfl | hq
        · exact absurd hqs h
        · exact ⟨q, hq, hqs⟩

/-- C10: `removeFile` on an absent path changes nothing and persists
nothing; `removeFiles` leaves the whole state unchanged when no listed
path is present, persists exactly once iff at least one listed path is
present, and an absent path in the list has no effect on the loop. -/
theorem removeFile_removeFiles_frame (now : Nat) (p : String) (ps qs : List String)
    (st : IndexMgrState) (fs : List (String × CloudFileInfo)) :
    (alookup st.cached.files p = none → removeFileStep now p st = st) ∧
    ((∀ q ∈ ps, alookup st.cached.files q = none) → removeFilesStep now ps st = st) ∧
    ((removeFilesStep now ps st).saveCount = st.saveCount + 1 ↔
      ∃ q ∈ ps, (alookup st.cached.files q).isSome) ∧
    (alookup fs p = none → removeFilesGo (p :: qs) fs = removeFilesGo qs fs) := by
  refine ⟨?_, ?_, ?_, ?_⟩
  · intro h
    simp [removeFileStep, h]
  · intro h
    simp [removeFilesStep, removeFilesGo_all_absent ps st.cached.files h]
  · simp only [removeFilesStep]
    by_cases h : (removeFilesGo ps st.cached.files).2 > 0
    · rw [if_pos h]
      simp only [saveStep]
      simp only [Nat.add_right_cancel_iff, eq_self_iff_true, true_iff]
      exact (removeFilesGo_removed_pos ps st.cached.files).mp h
    · rw [if_neg h]
      constructor
      · intro habs
        exact absurd habs (by omega)
      · intro hex
        exact absurd ((removeFilesGo_removed_pos ps st.cached.files).mpr hex) h
  · intro h
    simp [removeFilesGo, h]

/-- C10 witness: a one-entry index; removing an absent path is the
identity, removing a mix of one present and one absent path persists. -/
theorem removeFile_removeFiles_frame_witness :
    (removeFileStep 9 "b"
      ⟨⟨2, 0, "i", [("a", ⟨"a", "a", "a", 1, 5, 3, none, false⟩)]⟩, none, 0⟩ =
      ⟨⟨2, 0, "i", [("a", ⟨"a", "a", "a", 1, 5, 3, none, false⟩)]⟩, none, 0⟩) ∧
    (removeFilesStep 9 ["b", "a"]
      ⟨⟨2, 0, "i", [("a", ⟨"a", "a", "a", 1, 5, 3, none, false⟩)]⟩, none, 0⟩).saveCount = 1 :=
  ⟨(removeFile_removeFiles_frame 9 "b" [] []
      ⟨⟨2, 0, "i", [("a", ⟨"a", "a", "a", 1, 5, 3, none, false⟩)]⟩, none, 0⟩ []).1 (by decide),
   (removeFile_removeFiles_frame 9 "b" ["b", "a"] []
      ⟨⟨2, 0, "i", [("a", ⟨"a", "a", "a", 1, 5, 3, none, false⟩)]⟩, none, 0⟩ []).2.2.1.mpr
    ⟨"a", by decide, by decide⟩⟩

/-- C4: with a lock object present, an age below the five-minute threshold
fails the run with no mutation (in particular no lock is created), while an
age at or above the threshold replaces the lock object and proceeds. -/
theorem acquireLock_staleness (now createAt : Nat) (s : HubState)
    (h : s.lock = some createAt) :
    (now - createAt < fiveMinutesInMs → acquireLockStep now s = (s, false)) ∧
    (fiveMinutesInMs ≤ now - createAt →
      acquireLockStep now s = ({ s with lock := some now }, true)) := by
  constructor
  · intro hage
    simp [acquireLockStep, h, hage]
  · intro hage
    simp [acquireLockStep, h, Nat.not_lt.mpr hage]

/-- C4 witness: a fresh lock (age 1000 ms) blocks; a stale lock (age
400000 ms) is replaced. -/
theorem acquireLock_staleness_witness :
    acquireLockStep 1000 ⟨none, some 0, none, [], []⟩ = (⟨none, some 0, none, [], []⟩, false) ∧
    acquireLockStep 400000 ⟨none, some 0, none, [], []⟩ =
      (⟨none, some 400000, none, [], []⟩, true) :=
  ⟨(acquireLock_staleness 1000 0 ⟨none, some 0, none, [], []⟩ rfl).1 (by decide),
   (acquireLock_staleness 400000 0 ⟨none, some 0, none, [], []⟩ rfl).2 (by decide)⟩

/-- C1 counterexample: a run that fails with the "already locked" signal
after the hub's index document has already been rewritten — the persisted
index differs from what it was before the run started, refuting the claim
that no persisted object has been mutated at the moment of failure. -/
theorem sync_lock_contention_counterexample :
    (syncUpToLock 1000 "fresh"
      ⟨some ⟨2, 0, "old-instance", []⟩, some 0, some "cloud-1", [("data/a.md", 5)],
        [("L", 7)]⟩).2 = false ∧
    (syncUpToLock 1000 "fresh"
      ⟨some ⟨2, 0, "old-instance", []⟩, some 0, some "cloud-1", [("data/a.md", 5)],
        [("L", 7)]⟩).1.index ≠
      (⟨some ⟨2, 0, "old-instance", []⟩, some 0, some "cloud-1", [("data/a.md", 5)],
        [("L", 7)]⟩ : HubState).index := by
  constructor
  · rfl
  · decide

/-- C1 amended: when the run fails because a fresh lock is held, the lock,
the data files, the histories and the identity object are untouched, but
the hub's index document has already been persisted once — rewritten with
the cloud instance id bound and `lastUpdated` stamped — by `setInstanceId`,
which `sync` runs before `acquireLock`. -/
theorem sync_lock_contention_amended (now createAt : Nat) (freshId : String)
    (s : HubState) (cid : String) (hcid : s.cloudIdFile = some cid)
    (hlock : s.lock = some createAt) (hfresh : now - createAt < fiveMinutesInMs) :
    (syncUpToLock now freshId s).2 = false ∧
    (syncUpToLock now freshId s).1.lock = s.lock ∧
    (syncUpToLock now freshId s).1.dataFiles = s.dataFiles ∧
    (syncUpToLock now freshId s).1.histories = s.histories ∧
    (syncUpToLock now freshId s).1.cloudIdFile = s.cloudIdFile ∧
    (syncUpToLock now freshId s).1.index =
      some (CloudIndexV2.mk (load (idxOutcome s) now).version now cid
        (load (idxOutcome s) now).files) := by
  have hsync : syncUpToLock now freshId s =
      (HubState.mk
        (some (CloudIndexV2.mk (load (idxOutcome s) now).version now cid
          (load (idxOutcome s) now).files))
        s.lock s.cloudIdFile s.dataFiles s.histories, false) := by
    unfold syncUpToLock getCloudInstanceIdStep setInstanceIdStep acquireLockStep
    rw [hcid]
    simp [hlock, hfresh, hcid]
  rw [hsync]
  exact ⟨rfl, rfl, rfl, rfl, rfl, rfl⟩

/-- C1 amended witness: the counterexample state run through the amended
statement. -/
theorem sync_lock_contention_amended_witness :
    (syncUpToLock 1000 "fresh"
      ⟨some ⟨2, 0, "old-instance", []⟩, some 0, some "cloud-1", [("data/a.md", 5)],
        [("L", 7)]⟩).1.index = some ⟨2, 1000, "cloud-1", []⟩ := by
  have h := sync_lock_contention_amended 1000 0 "fresh"
    ⟨some ⟨2, 0, "old-instance", []⟩, some 0, some "cloud-1", [("data/a.md", 5)], [("L", 7)]⟩
    "cloud-1" rfl rfl (by decide)
  simpa using h.2.2.2.2.2

/-- C5: evaluating keep-both conflict handling at a conflict whose cloud
side is older (localTs = 200, cloudTs = 100): no conflict copy is written
at all — only the local-older branch materializes one — although the
closing message still reports the older version as saved under the derived
conflict name; with the sides swapped (local older) the copy is written,
and its path is the deterministic function of the older timestamp. -/
theorem keepBoth_cloud_older_writes_nothing :
    (handleConflict "data/note.md" 200 100).writes = [] ∧
    (handleConflict "data/note.md" 200 100).reportedSavedAs =
      conflictFileName "note.md" (formatStampSec 100) ∧
    (handleConflict "data/note.md" 100 200).writes =
      [⟨"data/" ++ conflictFileName "note.md" (formatStampSec 100), 100⟩] := by
  refine ⟨rfl, by decide, by decide⟩

/-- `jsOrNat` on a missing value. -/
theorem jsOrNat_none (b : Nat) : jsOrNat none b = b := rfl

/-- `x || 0` on a present number is the number itself. -/
theorem jsOrNat_some_zeroD (n : Nat) : jsOrNat (some n) 0 = n := by
  by_cases h : n = 0 <;> simp [jsOrNat, h]

/-- `handleDeletion` with the cloud side holding the file, as one
conditional: delete from the hub and the index iff the deletion predicate
holds and the target is not deletion-averse, otherwise re-download. -/
theorem handleDeletionActs_cloud_holder (path : String) (f : FileInfo)
    (localR cloudR : Remote) (target : Option SyncTarget) :
    handleDeletionActs path none (some f) localR cloudR target =
      if (getLastSyncWithRemote cloudR localR.instanceId > 0 ∧
          getLastSyncWithRemote cloudR localR.instanceId > f.updated ∧
          getLastSyncWithRemote cloudR localR.instanceId ≥ getMostRecentSyncTime cloudR) ∧
          avoidDeletionOf path target f.isDir = false
      then [.deleteCloud path, .removeIndex path]
      else [.download path] := by
  simp only [handleDeletionActs]
  simp [jsOrNat_none, jsOrNat_some_zeroD]

/-- `handleDeletion` with the local side holding the file, as one
conditional: delete locally iff the deletion predicate holds and the
target is not deletion-averse, otherwise re-upload. -/
theorem handleDeletionActs_local_holder (path : String) (f : FileInfo)
    (localR cloudR : Remote) (target : Option SyncTarget) :
    handleDeletionActs path (some f) none localR cloudR target =
      if (getLastSyncWithRemote localR cloudR.instanceId > 0 ∧
          getLastSyncWithRemote localR cloudR.instanceId > f.updated ∧
          getLastSyncWithRemote localR cloudR.instanceId ≥ getMostRecentSyncTime localR) ∧
          avoidDeletionOf path target f.isDir = false
      then [.deleteLocal path]
      else [.upload path] := by
  simp only [handleDeletionActs]
  simp [jsOrNat_none, jsOrNat_some_zeroD]

/-- C2: in deletion-vs-creation reconciliation the holder's file is
deleted (and, when the holder is the hub, removed from the index) iff
`commonSync > 0` and `commonSync > fileTimestamp` and
`commonSync ≥ mostRecent`, where both sync times are taken from the
holder's history; whenever that predicate fails or the target is
deletion-averse, the file is transferred to the missing side instead —
never a silent no-op. -/
theorem handleDeletion_characterization (path : String) (f : FileInfo)
    (localR cloudR : Remote) (target : Option SyncTarget) :
    ((getLastSyncWithRemote cloudR localR.instanceId > 0 ∧
        getLastSyncWithRemote cloudR localR.instanceId > f.updated ∧
        getLastSyncWithRemote cloudR localR.instanceId ≥ getMostRecentSyncTime cloudR) →
      avoidDeletionOf path target f.isDir = false →
      handleDeletionActs path none (some f) localR cloudR target =
        [.deleteCloud path, .removeIndex path]) ∧
    (¬(getLastSyncWithRemote cloudR localR.instanceId > 0 ∧
        getLastSyncWithRemote cloudR localR.instanceId > f.updated ∧
        getLastSyncWithRemote cloudR localR.instanceId ≥ getMostRecentSyncTime cloudR) ∨
        avoidDeletionOf path target f.isDir = true →
      handleDeletionActs path none (some f) localR cloudR target = [.download path]) ∧
    ((getLastSyncWithRemote localR cloudR.instanceId > 0 ∧
        getLastSyncWithRemote localR cloudR.instanceId > f.updated ∧
        getLastSyncWithRemote localR cloudR.instanceId ≥ getMostRecentSyncTime localR) →
      avoidDeletionOf path target f.isDir = false →
      handleDeletionActs path (some f) none localR cloudR target = [.deleteLocal path]) ∧
    (¬(getLastSyncWithRemote localR cloudR.instanceId > 0 ∧
        getLastSyncWithRemote localR cloudR.instanceId > f.updated ∧
        getLastSyncWithRemote localR cloudR.instanceId ≥ getMostRecentSyncTime localR) ∨
        avoidDeletionOf path target f.isDir = true →
      handleDeletionActs path (some f) none localR cloudR target = [.upload path]) := by
  refine ⟨?_, ?_, ?_, ?_⟩
  · intro hpred havd
    rw [handleDeletionActs_cloud_holder, if_pos ⟨hpred, havd⟩]
  · intro h
    rw [handleDeletionActs_cloud_holder, if_neg]
    rintro ⟨hpred, havd⟩
    rcases h with h | h
    · exact h hpred
    · rw [h] at havd
      exact absurd havd (by simp)
  · intro hpred havd
    rw [handleDeletionActs_local_holder, if_pos ⟨hpred, havd⟩]
  · intro h
    rw [handleDeletionActs_local_holder, if_neg]
    rintro ⟨hpred, havd⟩
    rcases h with h | h
    · exact h hpred
    · rw [h] at havd
      exact absurd havd (by simp)

/-- C2 witness: the spec's own example — cloud holds `b` at t=50, the
pairwise sync history is 80 and 80 is the most recent sync, so `b` is
deleted from the hub and its index entry removed; with t=100 instead, the
predicate fails and `b` is re-downloaded. -/
theorem handleDeletion_characterization_witness :
    handleDeletionActs "data/b" none (some ⟨"b", "data/b", false, 50, none, none, none⟩)
      ⟨"L", [], false⟩ ⟨"C", [("L", 80)], true⟩ none =
      [.deleteCloud "data/b", .removeIndex "data/b"] ∧
    handleDeletionActs "data/b" none (some ⟨"b", "data/b", false, 100, none, none, none⟩)
      ⟨"L", [], false⟩ ⟨"C", [("L", 80)], true⟩ none = [.download "data/b"] :=
  ⟨(handleDeletion_characterization "data/b" ⟨"b", "data/b", false, 50, none, none, none⟩
      ⟨"L", [], false⟩ ⟨"C", [("L", 80)], true⟩ none).1 (by decide) (by decide),
   (handleDeletion_characterization "data/b" ⟨"b", "data/b", false, 100, none, none, none⟩
      ⟨"L", [], false⟩ ⟨"C", [("L", 80)], true⟩ none).2.1 (by decide)⟩

/-- A detected conflict implies the two timestamps differ. -/
theorem detectConflict_ne (path : String) (a b : Nat) (localR cloudR : Remote)
    (h : detectConflict path a b localR cloudR = true) : a ≠ b := by
  intro heq
  simp [detectConflict, heq] at h

/-- C6: single-file reconciliation performs no transfer, deletion, index
change or conflict-copy write when both sides are absent, when the target
sets `onlyIfMissing` and both sides are present, when both sides are
present with equal timestamps, and when a tracked detected conflict is
resolved with keep-local. -/
theorem syncFile_noop_cases (path : String) (lf cf : FileInfo)
    (localR cloudR : Remote) (strategy : Strategy) (target : Option SyncTarget) :
    (syncFileActs path none none localR cloudR strategy target = []) ∧
    (onlyIfMissingOf target = true →
      syncFileActs path (some lf) (some cf) localR cloudR strategy target = []) ∧
    (lf.updated = cf.updated →
      syncFileActs path (some lf) (some cf) localR cloudR strategy target = []) ∧
    (shouldTrackConflictsOf target = true →
      detectConflict path (jsTs (some lf)) (jsTs (some cf)) localR cloudR = true →
      syncFileActs path (some lf) (some cf) localR cloudR .keepLocal target = []) := by
  refine ⟨?_, ?_, ?_, ?_⟩
  · simp [syncFileActs]
  · intro h
    simp [syncFileActs, h]
  · intro h
    simp [syncFileActs, jsTs, jsOrNat_some_zeroD, h]
  · intro htrack hconf
    have hne := detectConflict_ne path (jsTs (some lf)) (jsTs (some cf)) localR cloudR hconf
    simp [syncFileActs, htrack, hconf, hne, handleConflictWithStrategy]

/-- C6 witness: concrete instances of all four no-op cases. -/
theorem syncFile_noop_cases_witness :
    (syncFileActs "p" none none ⟨"L", [], false⟩ ⟨"C", [], true⟩ .keepNewer none = []) ∧
    (syncFileActs "p" (some ⟨"p", "p", false, 3, none, none, none⟩)
      (some ⟨"p", "p", false, 9, none, none, none⟩) ⟨"L", [], false⟩ ⟨"C", [], true⟩
      .keepNewer (some ⟨"d", [], ⟨none, some true, none, none, none⟩⟩) = []) ∧
    (syncFileActs "p" (some ⟨"p", "p", false, 7, none, none, none⟩)
      (some ⟨"p", "p", false, 7, none, none, none⟩) ⟨"L", [], false⟩ ⟨"C", [], true⟩
      .keepNewer none = []) ∧
    (syncFileActs "p" (some ⟨"p", "p", false, 30, none, none, none⟩)
      (some ⟨"p", "p", false, 40, none, none, none⟩) ⟨"L", [("C", 10)], false⟩
      ⟨"C", [("L", 20)], true⟩ .keepLocal none = []) :=
  ⟨(syncFile_noop_cases "p" ⟨"p", "p", false, 3, none, none, none⟩
      ⟨"p", "p", false, 9, none, none, none⟩ ⟨"L", [], false⟩ ⟨"C", [], true⟩
      .keepNewer none).1,
   (syncFile_noop_cases "p" ⟨"p", "p", false, 3, none, none, none⟩
      ⟨"p", "p", false, 9, none, none, none⟩ ⟨"L", [], false⟩ ⟨"C", [], true⟩
      .keepNewer (some ⟨"d", [], ⟨none, some true, none, none, none⟩⟩)).2.1 (by decide),
   (syncFile_noop_cases "p" ⟨"p", "p", false, 7, none, none, none⟩
      ⟨"p", "p", false, 7, none, none, none⟩ ⟨"L", [], false⟩ ⟨"C", [], true⟩
      .keepNewer none).2.2.1 (by decide),
   (syncFile_noop_cases "p" ⟨"p", "p", false, 30, none, none, none⟩
      ⟨"p", "p", false, 40, none, none, none⟩ ⟨"L", [("C", 10)], false⟩
      ⟨"C", [("L", 20)], true⟩ .keepLocal none).2.2.2 (by decide) (by decide)⟩

/-- Looking up a key after replacing the value stored under another key in
place. -/
theorem alookup_replace (m : List (String × StorageItem)) (k' k : String)
    (v : StorageItem) :
    alookup (m.map (fun kv => if kv.1 = k' then (k', v) else kv)) k =
      if k = k' then (if (alookup m k').isSome then some v else none)
      else alookup m k := by
  induction m with
  | nil => simp [alookup]
  | cons kv rest ih =>
    by_cases hkv : kv.1 = k'
    · by_cases hk : k = k'
      · simp [alookup, hkv, hk]
      · have hkk : ¬k' = k := fun hc => hk hc.symm
        have hkvk : ¬kv.1 = k := fun hc => hk (by rw [← hc, hkv])
        simp only [List.map_cons, if_pos hkv, alookup, if_neg hkk, if_neg hkvk, ih, if_neg hk]
    · by_cases hk : kv.1 = k
      · have hne : ¬k = k' := fun hc => hkv (by rw [hk, hc])
        simp [alookup, hkv, hk, hne]
      · simp only [List.map_cons, if_neg hkv, alookup, if_neg hk, ih]

/-- Looking up a key after appending a single entry. -/
theorem alookup_append_single (m : List (String × StorageItem)) (k' k : String)
    (v : StorageItem) :
    alookup (m ++ [(k', v)]) k =
      (alookup m k).or (if k' = k then some v else none) := by
  induction m with
  | nil => simp [alookup, Option.none_or]
  | cons kv rest ih =>
    by_cases hk : kv.1 = k
    · simp [alookup, hk]
    · simp [alookup, hk, ih]

/-- JavaScript `Map.set` seen through lookup: the key set is bound to the
new value and every other key is unchanged. -/
theorem alookup_mapSet (m : List (String × StorageItem)) (k' k : String)
    (v : StorageItem) :
    alookup (mapSet m k' v) k = if k = k' then some v else alookup m k := by
  unfold mapSet
  by_cases hmem : (alookup m k').isSome
  · rw [if_pos hmem, alookup_replace, if_pos hmem]
  · rw [if_neg hmem, alookup_append_single]
    have hmn : alookup m k' = none := Option.not_isSome_iff_eq_none.mp hmem
    by_cases hk : k = k'
    · rw [if_pos hk.symm, if_pos hk]
      have hmk : alookup m k = none := by rw [hk]; exact hmn
      rw [hmk]
      rfl
    · rw [if_neg (fun hc : k' = k => hk hc.symm), Option.or_none, if_neg hk]

/-- Folding `Map.set` over a children list, seen through lookup: the last
inserted child with the key wins, falling back to the initial map. -/
theorem alookup_foldl_mapSet (fs : List StorageItem)
    (m : List (String × StorageItem)) (k : String) :
    alookup (fs.foldl (fun m f => mapSet m f.path f) m) k =
      (fs.reverse.find? (fun f => decide (f.path = k))).or (alookup m k) := by
  induction fs generalizing m with
  | nil => simp [Option.none_or]
  | cons f rest ih =>
    simp only [List.foldl_cons, List.reverse_cons]
    rw [ih, alookup_mapSet, List.find?_append]
    cases hfind : rest.reverse.find? (fun f => decide (f.path = k)) with
    | some x => rfl
    | none =>
      simp only [Option.none_or]
      by_cases hk : k = f.path
      · simp [List.find?, hk]
      · have hd : decide (f.path = k) = false := decide_eq_false (fun hc => hk hc.symm)
        simp [List.find?, hd, hk]

/-- On a children list with no duplicate paths, searching from the back
finds the same child as searching from the front. -/
theorem find?_reverse_of_nodup (l : List StorageItem) (k : String)
    (h : (l.map StorageItem.path).Nodup) :
    l.reverse.find? (fun f => decide (f.path = k)) =
      l.find? (fun f => decide (f.path = k)) := by
  induction l with
  | nil => rfl
  | cons f rest ih =>
    simp only [List.map_cons, List.nodup_cons] at h
    simp only [List.reverse_cons, List.find?_append]
    by_cases hp : f.path = k
    · have hnone : rest.find? (fun f => decide (f.path = k)) = none := by
        refine List.find?_eq_none.mpr fun x hx => ?_
        simp only [decide_eq_true_eq]
        intro hc
        have hmem : x.path ∈ List.map StorageItem.path rest := List.mem_map_of_mem _ hx
        rw [hc, ← hp] at hmem
        exact h.1 hmem
      rw [ih h.2, hnone]
      simp [List.find?, hp]
    · rw [ih h.2]
      simp [List.find?, hp]

/-- Every entry produced by `Map.set` keyed by child path stores a child
whose path is its key. -/
theorem mapSet_inv (m : List (String × StorageItem)) (v : StorageItem)
    (h : ∀ e ∈ m, e.2.path = e.1) :
    ∀ e ∈ mapSet m v.path v, e.2.path = e.1 := by
  intro e he
  unfold mapSet at he
  split at he
  · rcases List.mem_map.mp he with ⟨x, hx, rfl⟩
    by_cases hxk : x.1 = v.path
    · simp [hxk]
    · simpa [hxk] using h x hx
  · rcases List.mem_append.mp he with hm | hm
    · exact h e hm
    · simp only [List.mem_singleton] at hm
      simp [hm]

/-- Every entry of the `filesMap` built by `joinItems` stores a child whose
path is its key. -/
theorem buildFilesMap_inv (fs : List StorageItem) :
    ∀ e ∈ buildFilesMap fs, e.2.path = e.1 := by
  suffices h : ∀ (m : List (String × StorageItem)), (∀ e ∈ m, e.2.path = e.1) →
      ∀ e ∈ fs.foldl (fun m f => mapSet m f.path f) m, e.2.path = e.1 by
    exact h [] (by simp)
  induction fs with
  | nil =>
    intro m hm
    simpa using hm
  | cons f rest ih =>
    intro m hm
    simp only [List.foldl_cons]
    exact ih _ (mapSet_inv m f hm)

/-- On a path-keyed map whose entries store children at their key, finding
a child among the values is the same as looking the key up. -/
theorem find?_values_eq_alookup (m : List (String × StorageItem)) (k : String)
    (h : ∀ e ∈ m, e.2.path = e.1) :
    (m.map (·.2)).find? (fun f => decide (f.path = k)) = alookup m k := by
  induction m with
  | nil => rfl
  | cons e rest ih =>
    have he := h e (by simp)
    simp only [List.map_cons, List.find?, alookup]
    by_cases hk : e.1 = k
    · simp [he, hk]
    · have hd : decide (e.2.path = k) = false := decide_eq_false (by rw [he]; exact hk)
      simp only [hd, if_neg hk]
      exact ih fun x hx => h x (by simp [hx])

/-- C8: `joinItems` keeps non-null metadata preferring `item1` then
`item2`; a non-null side joined with null is returned unchanged; and the
merged children, keyed by path with `item1`'s children inserted before
`item2`'s, give the union of both sides with `item2`'s entry winning on a
path collision: looking any path up in the merged children finds
`item2`'s child if it has one, else `item1`'s, else nothing. -/
theorem joinItems_characterization (a b t : StorageItem) (k : String)
    (hpath : a.path = b.path)
    (hna : (a.files.map StorageItem.path).Nodup)
    (hnb : (b.files.map StorageItem.path).Nodup) :
    joinItems (some t) none = Except.ok t ∧
    joinItems none (some t) = Except.ok t ∧
    ∃ j, joinItems (some a) (some b) = Except.ok j ∧
      j.path = a.path ∧
      j.item = (match a.item with | some x => some x | none => b.item) ∧
      findChild j.files k = (findChild b.files k).or (findChild a.files k) := by
  refine ⟨rfl, rfl,
    ⟨StorageItem.mk a.path a.parentPath
      (match a.item with | some x => some x | none => b.item)
      ((buildFilesMap (a.files ++ b.files)).map (·.2)), ?_, rfl, rfl, ?_⟩⟩
  · simp only [joinItems]
    rw [if_neg (fun hne => hne hpath)]
  · show findChild ((buildFilesMap (a.files ++ b.files)).map (·.2)) k = _
    unfold findChild
    rw [find?_values_eq_alookup _ _ (buildFilesMap_inv _)]
    unfold buildFilesMap
    rw [alookup_foldl_mapSet]
    have h0 : alookup ([] : List (String × StorageItem)) k = none := rfl
    rw [h0, Option.or_none, List.reverse_append, List.find?_append,
      find?_reverse_of_nodup _ _ hnb, find?_reverse_of_nodup _ _ hna]

/-- C8 witness: two one-child trees at the same path whose children
collide on one path — the second side's child wins. -/
theorem joinItems_characterization_witness :
    ∃ j, joinItems
        (some (.mk "d" none none [.mk "d/x" (some "d") (some ⟨"x", "d/x", false, 1, none, none, none⟩) []]))
        (some (.mk "d" none (some ⟨"d", "d", true, 5, none, none, none⟩)
          [.mk "d/x" (some "d") (some ⟨"x", "d/x", false, 2, none, none, none⟩) []])) =
        Except.ok j ∧
      j.item = some ⟨"d", "d", true, 5, none, none, none⟩ ∧
      findChild j.files "d/x" =
        some (.mk "d/x" (some "d") (some ⟨"x", "d/x", false, 2, none, none, none⟩) []) := by
  obtain ⟨j, hj, hp, hi, hc⟩ :=
    (joinItems_characterization
      (.mk "d" none none [.mk "d/x" (some "d") (some ⟨"x", "d/x", false, 1, none, none, none⟩) []])
      (.mk "d" none (some ⟨"d", "d", true, 5, none, none, none⟩)
        [.mk "d/x" (some "d") (some ⟨"x", "d/x", false, 2, none, none, none⟩) []])
      (.mk "z" none none []) "d/x" rfl (by decide) (by decide)).2.2
  refine ⟨j, hj, ?_, ?_⟩
  · rw [hi]
    rfl
  · rw [hc]
    rfl

/-- The retry loop from the source equals the per-slice trace the spec
describes: attempts of the same slice from 1, a backoff sleep of
`attempt × RETRY_DELAY` after each failure below the bound, success at the
first passing attempt, failure after `MAX_SLICE_RETRIES` attempts. -/
theorem uploadSliceWithRetry_eq_spec (f : Nat → Bool) (s : Nat) :
    uploadSliceWithRetry f s = sliceRetrySpec f s := by
  cases h1 : f 1 <;> cases h2 : f 2 <;> cases h3 : f 3 <;>
    simp [uploadSliceWithRetry, retryFrom, sliceRetrySpec, firstOk, maxSliceRetries,
      retryDelay, h1, h2, h3, List.range']

/-- One slice's retries succeed exactly when some attempt within the bound
passes. -/
theorem uploadSliceWithRetry_ok_iff (f : Nat → Bool) (s : Nat) :
    (uploadSliceWithRetry f s).2 = (firstOk f).isSome := by
  rw [uploadSliceWithRetry_eq_spec]
  unfold sliceRetrySpec
  cases firstOk f <;> rfl

/-- The slice loop completes exactly when every listed slice succeeds
within the retry bound: one exhausted slice aborts the whole upload. -/
theorem uploadSlicesGo_ok_iff (fails : Nat → Nat → Bool) (l : List Nat) :
    (uploadSlicesGo fails l).2 = true ↔ ∀ s ∈ l, (firstOk (fails s)).isSome := by
  induction l with
  | nil => simp [uploadSlicesGo]
  | cons s rest ih =>
    simp only [uploadSlicesGo]
    by_cases h : (uploadSliceWithRetry (fails s) s).2 = true
    · rw [if_pos h]
      simp only [List.mem_cons, ih]
      constructor
      · intro hall q hq
        rcases hq with rfl | hq
        · rw [← uploadSliceWithRetry_ok_iff (fails q) q]
          exact h
        · exact hall q hq
      · intro hall
        exact fun q hq => hall q (Or.inr hq)
    · rw [if_neg h]
      constructor
      · intro hfalse
        exact absurd hfalse h
      · intro hall
        exfalso
        apply h
        rw [uploadSliceWithRetry_ok_iff]
        simpa using hall s (by simp)

/-- When every slice succeeds within the bound, the whole upload trace is
the concatenation, slice by slice in listed order, of the per-slice spec
traces. -/
theorem uploadSlicesGo_trace_all_ok (fails : Nat → Nat → Bool) (l : List Nat)
    (h : ∀ s ∈ l, (firstOk (fails s)).isSome) :
    (uploadSlicesGo fails l).1 =
      (l.map (fun s => (sliceRetrySpec (fails s) s).1)).flatten := by
  induction l with
  | nil => rfl
  | cons s rest ih =>
    have hs : (uploadSliceWithRetry (fails s) s).2 = true := by
      rw [uploadSliceWithRetry_ok_iff]
      exact h s (by simp)
    simp only [uploadSlicesGo, if_pos hs, List.map_cons, List.flatten_cons]
    rw [ih fun q hq => h q (by simp [hq]), uploadSliceWithRetry_eq_spec]

/-- C9: chunked upload submits 1-based slices strictly sequentially; each
slice's failures are retried in place up to `MAX_SLICE_RETRIES = 3`
attempts with backoff `attempt × RETRY_DELAY` (the per-slice trace equals
the spec's retry trace); the upload completes iff every slice succeeds
within the bound — one exhausted slice aborts the whole upload — and in a
completing run the full event trace is the in-order concatenation of the
per-slice traces, after which completion runs once for the file. -/
theorem chunked_upload_retry_characterization (fails : Nat → Nat → Bool)
    (f : Nat → Bool) (totalSize sliceSize s : Nat) :
    (uploadSliceWithRetry f s = sliceRetrySpec f s) ∧
    ((uploadSlices fails totalSize sliceSize).2 = true ↔
      ∀ q ∈ List.range' 1 (numSlices totalSize (effectiveChunk sliceSize)),
        (firstOk (fails q)).isSome) ∧
    ((∀ q ∈ List.range' 1 (numSlices totalSize (effectiveChunk sliceSize)),
        (firstOk (fails q)).isSome) →
      (uploadSlices fails totalSize sliceSize).1 =
        ((List.range' 1 (numSlices totalSize (effectiveChunk sliceSize))).map
          (fun q => (sliceRetrySpec (fails q) q).1)).flatten) :=
  ⟨uploadSliceWithRetry_eq_spec f s,
   uploadSlicesGo_ok_iff fails _,
   fun h => uploadSlicesGo_trace_all_ok fails _ h⟩

/-- C9 witness: a 5-byte payload in 2-byte slices (3 slices) where slice 2
fails attempts 1 and 2 and succeeds on attempt 3: the upload completes and
its trace is the expected sequential retried trace. -/
theorem chunked_upload_retry_characterization_witness :
    (uploadSlices sliceFailPlan 5 2).2 = true ∧
    (uploadSlices sliceFailPlan 5 2).1 =
      ((List.range' 1 (numSlices 5 (effectiveChunk 2))).map
        (fun q => (sliceRetrySpec (sliceFailPlan q) q).1)).flatten :=
  ⟨(chunked_upload_retry_characterization sliceFailPlan (sliceFailPlan 1) 5 2 1).2.1.mpr
      (by decide),
   (chunked_upload_retry_characterization sliceFailPlan (sliceFailPlan 1) 5 2 1).2.2
      (by decide)⟩

end SiyuanSync
